import Mathlib

/-!
Verification development for the `convert_cbz` batch CBZ converter
(`main.go`).  The Go program is shallowly embedded: paths and file names
are lists of characters, file contents are lists of byte values, and the
filesystem effects that the program observes (stat, directory walk,
create, archive writes) are explicit fields of a record that each
function threads through.  Machine integers in the program only count
upwards from zero, so they are embedded as `Nat`.
-/

namespace ConvertCbz

/-- Paths and file names, as Go strings restricted to the operations the
program uses (`strings.ToLower`, `strings.Contains`, prefix tests,
lexicographic sort). -/
abbrev Str := List Char

/-- Byte values `0..255` of a file's contents. -/
abbrev Bytes := List Nat

/-- `strings.ToLower` (the inputs exercised here are ASCII). -/
def toLowerStr (s : Str) : Str := s.map Char.toLower

/-- `strings.Contains s sub`: does `sub` occur as a contiguous substring
of `s`? -/
def containsSub (s sub : Str) : Bool :=
  match s with
  | [] => sub.isEmpty
  | _ :: rest => sub.isPrefixOf s || containsSub rest sub

/-- Byte-wise `≤` used by `sort.Strings`'s lexicographic comparison. -/
def lexLe : Str → Str → Bool
  | [], _ => true
  | _ :: _, [] => false
  | a :: as, b :: bs => if a = b then lexLe as bs else decide (a.toNat < b.toNat)

/-- Insert into a lexicographically sorted list. -/
def insertSorted (x : Str) : List Str → List Str
  | [] => [x]
  | y :: ys => if lexLe x y then x :: y :: ys else y :: insertSorted x ys

/-- `sort.Strings`, as insertion sort with `lexLe`. -/
def sortStrings : List Str → List Str
  | [] => []
  | x :: xs => insertSorted x (sortStrings xs)

/-- `filepath.Ext`: the suffix starting at the final dot of the final
slash-separated element, empty when there is none.  `extRev` walks the
reversed path. -/
def extRev : List Char → Str → Str
  | [], _ => []
  | c :: rest, acc =>
    if c = '/' then []
    else if c = '.' then '.' :: acc
    else extRev rest (c :: acc)

/-- `filepath.Ext` on a path. -/
def fileExt (p : Str) : Str := extRev p.reverse []

/-- `filepath.Base` restricted to the slash-separated paths used here:
the part after the final slash. -/
def baseName (p : Str) : Str := (p.reverse.takeWhile (fun c => ¬ c = '/')).reverse

/-- `filepath.Join` restricted to joining two clean relative/absolute
components, as the program does. -/
def joinPath (a b : Str) : Str := a ++ '/' :: b

/-- The fixed system-file names of `shouldExcludeFile` (`systemFiles`). -/
def systemFiles : List Str :=
  [".ds_store".data, "thumbs.db".data, "desktop.ini".data, ".directory".data,
   "folder.jpg".data, "albumartsmall.jpg".data, ".picasa.ini".data]

/-- The VCS marker substrings of `shouldExcludeFile` (`vcsPatterns`). -/
def vcsPatterns : List Str :=
  [".git".data, ".svn".data, ".hg".data, ".bzr".data,
   ".gitignore".data, ".gitattributes".data, ".hgignore".data]

/-- The IDE/editor marker substrings of `shouldExcludeFile`
(`idePatterns`); note the program stores the literal three-character
patterns containing an asterisk and matches them with
`strings.Contains`. -/
def idePatterns : List Str :=
  [".vscode".data, ".idea".data, ".sublime-".data,
   "*.swp".data, "*.swo".data, "*~".data]

/-- `shouldExcludeFile`: lower-case the name, then test exact membership
in `systemFiles` and substring matches against `vcsPatterns` and
`idePatterns`. -/
def shouldExcludeFile (fileName : Str) : Bool :=
  let fn := toLowerStr fileName
  if systemFiles.contains fn then true
  else if vcsPatterns.any (fun p => containsSub fn p) then true
  else if idePatterns.any (fun p => containsSub fn p) then true
  else false

/-- The text-extension allowlist of `isUsefulFile` (`textExtensions`). -/
def textExtensions : List Str :=
  [".txt".data, ".md".data, ".nfo".data, ".info".data,
   ".readme".data, ".description".data, ".notes".data]

/-- The video-extension allowlist of `isUsefulFile`
(`videoExtensions`). -/
def videoExtensions : List Str :=
  [".mp4".data, ".avi".data, ".mkv".data, ".mov".data,
   ".wmv".data, ".flv".data, ".webm".data, ".m4v".data]

/-- The MIME prefixes `isUsefulFile` accepts (`usefulMimeTypes`). -/
def usefulMimeTypes : List Str := ["image/".data, "text/".data, "video/".data]

/-- The whitespace bytes `net/http`'s sniffer skips before the trailing
plain-text rule. -/
def isWSByte (b : Nat) : Bool :=
  b = 0x09 || b = 0x0A || b = 0x0C || b = 0x0D || b = 0x20

/-- The byte values the sniffer's plain-text rule treats as binary. -/
def isBinaryByte (b : Nat) : Bool :=
  b ≤ 0x08 || b = 0x0B || (0x0E ≤ b && b ≤ 0x1A) || (0x1C ≤ b && b ≤ 0x1F)

/-- The sniffer's trailing plain-text rule: after skipping leading
whitespace, no binary byte may occur. -/
def textSigMatch (data : Bytes) : Bool :=
  (data.dropWhile isWSByte).all (fun b => ¬ isBinaryByte b)

/-- Model of `net/http.DetectContentType`, restricted to the signature
rules its call site in `isUsefulFile` exercises in this development:
the exact JPEG/PNG/GIF magic numbers, the trailing plain-text rule, and
the `application/octet-stream` fallback.  The omitted signatures match
none of the buffers evaluated here. -/
def detectContentType (data : Bytes) : Str :=
  if [0xFF, 0xD8, 0xFF].isPrefixOf data then "image/jpeg".data
  else if [0x89, 0x50, 0x4E, 0x47, 0x0D, 0x0A, 0x1A, 0x0A].isPrefixOf data then
    "image/png".data
  else if [0x47, 0x49, 0x46, 0x38, 0x37, 0x61].isPrefixOf data then "image/gif".data
  else if [0x47, 0x49, 0x46, 0x38, 0x39, 0x61].isPrefixOf data then "image/gif".data
  else if textSigMatch data then "text/plain; charset=utf-8".data
  else "application/octet-stream".data

/-- The 512-byte sniff buffer of `isUsefulFile`: `make([]byte, 512)`
filled by a single `file.Read`, which leaves the tail of a short file's
buffer zero.  (`Read` returning `io.EOF` on an empty file is accepted by
the program.) -/
def sniffBuffer (content : Bytes) : Bytes :=
  content.take 512 ++ List.replicate (512 - content.length) 0

/-- One file met by the directory walk: its full path, its base name
(`d.Name()`), its contents, and whether opening/reading it succeeds. -/
structure FileEntry where
  path : Str
  name : Str
  content : Bytes
  readable : Bool
deriving DecidableEq

/-- `isUsefulFile`: extension allowlists first (no content read), then
the 512-byte content sniff; an open/read failure is the error case the
caller treats as fail-open. -/
def isUsefulFile (e : FileEntry) : Except Unit Bool :=
  let ext := toLowerStr (fileExt e.path)
  if textExtensions.contains ext then Except.ok true
  else if videoExtensions.contains ext then Except.ok true
  else if e.readable = false then Except.error ()
  else
    let mimeType := detectContentType (sniffBuffer e.content)
    Except.ok (usefulMimeTypes.any (fun p => p.isPrefixOf mimeType))

/-- The filesystem state and fault model that the conversion pipeline
observes.  `statOk` is whether `os.Stat` of a path succeeds (the path
exists); `walk` is the ordered list of non-directory entries
`filepath.WalkDir` yields under a directory (the program's callback
skips directory entries); `walkFails` is whether the walk itself aborts
with an error; `createFails` is whether `os.Create` of a path fails;
`addOk` is whether `addFileToZip` succeeds for a source file (the
open/stat/header/copy steps).  Archive entry bytes are not modelled:
the claims concern only success/failure and the output file's
existence. -/
structure FS where
  statOk : Str → Bool
  walk : Str → List FileEntry
  walkFails : Str → Bool
  createFails : Str → Bool
  addOk : Str → Bool

/-- The body of the `filepath.WalkDir` callback in
`getSmartFilteredFiles`, acting on the accumulated
`(includedFiles, excludedFiles)` pair: name-based exclusion first, then
`isUsefulFile` with its error treated as include-anyway. -/
def smartStep (acc : List Str × List Str) (e : FileEntry) : List Str × List Str :=
  if shouldExcludeFile e.name then (acc.1, acc.2 ++ [e.name])
  else
    match isUsefulFile e with
    | Except.error _ => (acc.1 ++ [e.path], acc.2)
    | Except.ok true => (acc.1 ++ [e.path], acc.2)
    | Except.ok false => (acc.1, acc.2 ++ [e.name])

/-- `getSmartFilteredFiles`: walk the directory accumulating via
`smartStep`, sort the included paths, and return them with
`len(excludedFiles)`. -/
def getSmartFilteredFiles (fs : FS) (dir : Str) : Except Unit (List Str × Nat) :=
  if fs.walkFails dir then Except.error ()
  else
    let acc := (fs.walk dir).foldl smartStep ([], [])
    Except.ok (sortStrings acc.1, acc.2.length)

/-- `getAllFiles` (dumb mode): every non-directory path under the
directory, sorted. -/
def getAllFiles (fs : FS) (dir : Str) : Except Unit (List Str) :=
  if fs.walkFails dir then Except.error ()
  else Except.ok (sortStrings ((fs.walk dir).map (fun e => e.path)))

/-- The error cases of `convertToCBZ`, one per `fmt.Errorf` site:
`scanFailed` ("failed to scan directory"), `analyzeFailed` ("failed to
analyze directory"), `noFiles` ("no files found to archive"),
`createFailed` ("failed to create CBZ file"), `addFailed` ("failed to
add file to archive"). -/
inductive CbzError where
  | scanFailed
  | analyzeFailed
  | noFiles
  | createFailed
  | addFailed
deriving DecidableEq

/-- `convertToCBZ`: list the files (dumb or smart), fail on an empty
list, create the output file, then add each file to the archive.  The
returned state records the filesystem after the call: note that once
`os.Create` has succeeded the output path exists, and the function
returns on an `addFileToZip` error without removing it. -/
def convertToCBZ (fs : FS) (sourceDir cbzPath : Str) (dumbMode : Bool) :
    FS × Except CbzError Nat :=
  let scan : Except CbzError (List Str × Nat) :=
    if dumbMode then
      match getAllFiles fs sourceDir with
      | Except.error _ => Except.error CbzError.scanFailed
      | Except.ok files => Except.ok (files, 0)
    else
      match getSmartFilteredFiles fs sourceDir with
      | Except.error _ => Except.error CbzError.analyzeFailed
      | Except.ok r => Except.ok r
  match scan with
  | Except.error e => (fs, Except.error e)
  | Except.ok (includeFiles, excludedCount) =>
    if includeFiles.isEmpty then (fs, Except.error CbzError.noFiles)
    else if fs.createFails cbzPath then (fs, Except.error CbzError.createFailed)
    else
      let fs1 : FS := { fs with statOk := fun p => if p = cbzPath then true else fs.statOk p }
      if includeFiles.all fs.addOk then (fs1, Except.ok excludedCount)
      else (fs1, Except.error CbzError.addFailed)

/-- `WorkItem` (one conversion job). -/
structure WorkItem where
  FolderName : Str
  SourcePath : Str
  OutputPath : Str
  DumbMode : Bool
deriving DecidableEq

/-- `ConversionStats` without its mutex: every mutation in the program
happens inside a `stats.mu.Lock()`/`Unlock()` block, so each update is
a single atomic step here. -/
structure ConversionStats where
  Total : Nat
  Success : Nat
  Errors : Nat
  Skipped : Nat
  NonImageFiles : Nat
deriving DecidableEq

/-- `stats := &ConversionStats{Total: len(workItems)}` in `main`. -/
def initStats (workItems : List WorkItem) : ConversionStats :=
  { Total := workItems.length, Success := 0, Errors := 0, Skipped := 0,
    NonImageFiles := 0 }

/-- `processWorkItem`: skip when the output already exists, otherwise
convert and record exactly one outcome.  The final `Bool` records
whether `convertToCBZ` (classification + archive build) was invoked. -/
def processWorkItem (fs : FS) (item : WorkItem) (stats : ConversionStats) :
    FS × ConversionStats × Bool :=
  if fs.statOk item.OutputPath then
    (fs, { stats with Skipped := stats.Skipped + 1 }, false)
  else
    match convertToCBZ fs item.SourcePath item.OutputPath item.DumbMode with
    | (fs1, Except.error _) => (fs1, { stats with Errors := stats.Errors + 1 }, true)
    | (fs1, Except.ok n) =>
      (fs1, { stats with Success := stats.Success + 1,
                         NonImageFiles := stats.NonImageFiles + n }, true)

/-- `processConcurrently`: the fixed worker pool drains the whole job
list, each job processed by exactly one worker, and every counter
update is one mutex-protected block.  The pool is therefore modelled by
processing the job list in sequence; an arbitrary completion
interleaving is captured by quantifying theorems over the job list.
`numThreads` does not influence which updates happen. -/
def processConcurrently (fs : FS) (workItems : List WorkItem) (numThreads : Nat)
    (stats : ConversionStats) : FS × ConversionStats :=
  match workItems with
  | [] => (fs, stats)
  | item :: rest =>
    let r := processWorkItem fs item stats
    processConcurrently r.1 rest numThreads r.2.1

/-- What the work-item collectors observe of the filesystem: `statOk`
is whether `os.Stat` succeeds, `isDir` whether the path is a directory,
`subdirs` the sorted immediate subdirectory names `getFolders` returns
(or its `os.ReadDir` error), and `abs` the result of `filepath.Abs`
(`none` on failure). -/
structure CollectFS where
  statOk : Str → Bool
  isDir : Str → Bool
  subdirs : Str → Except Unit (List Str)
  abs : Str → Option Str

/-- The common tail of both collectors: skip a candidate whose absolute
path was already seen, otherwise append the work item and remember the
path (`seenPaths[absPath] = true`). -/
def dedupInsert (acc : List WorkItem × List Str) (w : WorkItem) :
    List WorkItem × List Str :=
  if w.SourcePath ∈ acc.2 then acc
  else (acc.1 ++ [w], w.SourcePath :: acc.2)

/-- The body of the inner `for _, folder := range folders` loop of
`collectRecursiveWorkItems`. -/
def recursiveStep (fs : CollectFS) (outputDir : Str) (dumbMode : Bool)
    (inputPath : Str) (acc : List WorkItem × List Str) (folder : Str) :
    List WorkItem × List Str :=
  match fs.abs (joinPath inputPath folder) with
  | none => acc
  | some absPath =>
    dedupInsert acc
      { FolderName := folder, SourcePath := absPath,
        OutputPath := joinPath outputDir (folder ++ ".cbz".data),
        DumbMode := dumbMode }

/-- The body of the outer `for _, inputPath := range inputPaths` loop
of `collectRecursiveWorkItems`: skip a missing root or a failed
`getFolders`, otherwise run the inner loop over the subdirectories. -/
def recursiveRootStep (fs : CollectFS) (outputDir : Str) (dumbMode : Bool)
    (acc : List WorkItem × List Str) (inputPath : Str) :
    List WorkItem × List Str :=
  if fs.statOk inputPath = false then acc
  else
    match fs.subdirs inputPath with
    | Except.error _ => acc
    | Except.ok folders =>
      folders.foldl (recursiveStep fs outputDir dumbMode inputPath) acc

/-- `collectRecursiveWorkItems`: one work item per immediate
subdirectory of each existing input root, deduplicated by absolute
source path. -/
def collectRecursiveWorkItems (fs : CollectFS) (inputPaths : List Str)
    (outputDir : Str) (dumbMode : Bool) : List WorkItem :=
  (inputPaths.foldl (recursiveRootStep fs outputDir dumbMode) ([], [])).1

/-- The body of the `for _, inputPath := range inputPaths` loop of
`collectDirectWorkItems`. -/
def directStep (fs : CollectFS) (outputDir : Str) (dumbMode : Bool)
    (acc : List WorkItem × List Str) (inputPath : Str) :
    List WorkItem × List Str :=
  if fs.statOk inputPath = false then acc
  else if fs.isDir inputPath = false then acc
  else
    match fs.abs inputPath with
    | none => acc
    | some absPath =>
      dedupInsert acc
        { FolderName := baseName absPath, SourcePath := absPath,
          OutputPath := joinPath outputDir (baseName absPath ++ ".cbz".data),
          DumbMode := dumbMode }

/-- `collectDirectWorkItems`: one work item per existing input root
that is a directory, deduplicated by absolute source path. -/
def collectDirectWorkItems (fs : CollectFS) (inputPaths : List Str)
    (outputDir : Str) (dumbMode : Bool) : List WorkItem :=
  (inputPaths.foldl (directStep fs outputDir dumbMode) ([], [])).1

/-- ASCII bytes of a string, for building concrete file contents. -/
def bytesOf (s : String) : Bytes := s.data.map Char.toNat

/-- The processed-outcome count `Success + Errors + Skipped` of a stats
record. -/
def statsSum (s : ConversionStats) : Nat := s.Success + s.Errors + s.Skipped

/-- An entry the smart walk classifies as excluded: either by name or by
a completed sniff that found nothing useful. -/
def isExcludedEntry (e : FileEntry) : Bool :=
  shouldExcludeFile e.name ||
    (match isUsefulFile e with
     | Except.ok false => true
     | _ => false)

/-- The invariant both collectors maintain on their
`(workItems, seenPaths)` accumulator: every emitted source path has been
recorded as seen, and the emitted source paths are pairwise distinct. -/
def DedupInv (acc : List WorkItem × List Str) : Prop :=
  (∀ w ∈ acc.1, w.SourcePath ∈ acc.2) ∧
  acc.1.Pairwise (fun a b => a.SourcePath ≠ b.SourcePath)

/-- A filesystem in which the output archive `out/b.cbz` already
exists. -/
def skipFS : FS :=
  { statOk := fun p => decide (p = "out/b.cbz".data),
    walk := fun _ => [⟨"in/b/p.jpg".data, "p.jpg".data, [0xFF, 0xD8, 0xFF], true⟩],
    walkFails := fun _ => false, createFails := fun _ => false,
    addOk := fun _ => true }

/-- A job whose output path is the existing `out/b.cbz`. -/
def skipItem : WorkItem :=
  { FolderName := "b".data, SourcePath := "in/b".data,
    OutputPath := "out/b.cbz".data, DumbMode := false }

/-- A mid-run stats record. -/
def skipStats : ConversionStats :=
  { Total := 3, Success := 1, Errors := 0, Skipped := 1, NonImageFiles := 0 }

/-- A filesystem with one readable source file whose archive write
(`addFileToZip`) fails. -/
def failAddFS : FS :=
  { statOk := fun _ => false,
    walk := fun _ => [⟨"src/a.jpg".data, "a.jpg".data, [0xFF, 0xD8, 0xFF], true⟩],
    walkFails := fun _ => false, createFails := fun _ => false,
    addOk := fun _ => false }

/-- The walk of the spec's smart-exclusion scenario directory
`{page1.jpg, .DS_Store, .git/config, readme.md}`, in `WalkDir`'s lexical
order, with representative contents: a binary `.DS_Store`, a standard
short textual git config, a JPEG page, and a text note. -/
def scenarioWalk : List FileEntry :=
  [⟨"src/.DS_Store".data, ".DS_Store".data, [0x00, 0x00, 0x00, 0x01], true⟩,
   ⟨"src/.git/config".data, "config".data,
     bytesOf "[core]\n\trepositoryformatversion = 0\n", true⟩,
   ⟨"src/page1.jpg".data, "page1.jpg".data, [0xFF, 0xD8, 0xFF, 0xE0], true⟩,
   ⟨"src/readme.md".data, "readme.md".data, bytesOf "scanned by x", true⟩]

/-- The smart-exclusion scenario directory as a filesystem. -/
def scenarioFS : FS :=
  { statOk := fun _ => false, walk := fun _ => scenarioWalk,
    walkFails := fun _ => false, createFails := fun _ => false,
    addOk := fun _ => true }

/-- A readable zero-byte file with an extension outside both
allowlists. -/
def zeroByteEntry : FileEntry :=
  { path := "d/x.bin".data, name := "x.bin".data, content := [], readable := true }

/-- A file that cannot be opened for sniffing. -/
def failOpenEntry : FileEntry :=
  { path := "d/strange".data, name := "strange".data, content := [],
    readable := false }

/-- A directory containing only the unreadable `failOpenEntry`. -/
def failOpenFS : FS :=
  { statOk := fun _ => false, walk := fun _ => [failOpenEntry],
    walkFails := fun _ => false, createFails := fun _ => false,
    addOk := fun _ => true }

/-- A directory with two excluded files of the same base name
`.DS_Store` in different subdirectories. -/
def dupNameFS : FS :=
  { statOk := fun _ => false,
    walk := fun _ =>
      [⟨"d/a/.DS_Store".data, ".DS_Store".data, [], true⟩,
       ⟨"d/b/.DS_Store".data, ".DS_Store".data, [], true⟩],
    walkFails := fun _ => false, createFails := fun _ => false,
    addOk := fun _ => true }

/-- Each call of `processWorkItem` ends in exactly one of the three
outcome branches, updating the stats record accordingly. -/
lemma processWorkItem_stats_cases (fs : FS) (item : WorkItem) (s : ConversionStats) :
    (processWorkItem fs item s).2.1 = { s with Skipped := s.Skipped + 1 } ∨
    (processWorkItem fs item s).2.1 = { s with Errors := s.Errors + 1 } ∨
    ∃ n, (processWorkItem fs item s).2.1 =
      { s with Success := s.Success + 1, NonImageFiles := s.NonImageFiles + n } := by
  unfold processWorkItem
  split
  · exact Or.inl rfl
  · split
    · exact Or.inr (Or.inl rfl)
    · exact Or.inr (Or.inr ⟨_, rfl⟩)

/-- Each call of `processWorkItem` raises the processed-outcome count by
exactly one and leaves `Total` unchanged. -/
lemma processWorkItem_statsSum (fs : FS) (item : WorkItem) (s : ConversionStats) :
    statsSum (processWorkItem fs item s).2.1 = statsSum s + 1 ∧
    (processWorkItem fs item s).2.1.Total = s.Total := by
  rcases processWorkItem_stats_cases fs item s with h | h | ⟨n, h⟩ <;>
    rw [h] <;> simp [statsSum] <;> omega

/-- Draining a job list raises the processed-outcome count by the number
of jobs and leaves `Total` unchanged. -/
lemma processConcurrently_statsSum (items : List WorkItem) :
    ∀ (fs : FS) (nt : Nat) (s : ConversionStats),
    statsSum (processConcurrently fs items nt s).2 = statsSum s + items.length ∧
    (processConcurrently fs items nt s).2.Total = s.Total := by
  induction items with
  | nil => intro fs nt s; simp [processConcurrently]
  | cons item rest ih =>
    intro fs nt s
    have h1 := processWorkItem_statsSum fs item s
    have h2 := ih (processWorkItem fs item s).1 nt (processWorkItem fs item s).2.1
    simp only [processConcurrently]
    constructor
    · rw [h2.1, h1.1]; simp; omega
    · rw [h2.2, h1.2]

/-- Membership is preserved by sorted insertion. -/
lemma mem_insertSorted (a x : Str) (l : List Str) :
    a ∈ insertSorted x l ↔ a = x ∨ a ∈ l := by
  induction l with
  | nil => simp [insertSorted]
  | cons y ys ih =>
    unfold insertSorted
    split
    · simp [List.mem_cons]
    · simp only [List.mem_cons, ih]
      tauto

/-- `sortStrings` preserves membership. -/
lemma mem_sortStrings (a : Str) (l : List Str) : a ∈ sortStrings l ↔ a ∈ l := by
  induction l with
  | nil => simp [sortStrings]
  | cons x xs ih => simp [sortStrings, mem_insertSorted, ih]

/-- One smart-walk step only appends to the included list. -/
lemma smartStep_fst_grows (acc : List Str × List Str) (e : FileEntry) :
    ∃ t, (smartStep acc e).1 = acc.1 ++ t := by
  unfold smartStep
  split
  · exact ⟨[], by simp⟩
  · split
    · exact ⟨[e.path], rfl⟩
    · exact ⟨[e.path], rfl⟩
    · exact ⟨[], by simp⟩

/-- Paths already included stay included through the rest of the walk. -/
lemma foldl_smartStep_fst_mono (entries : List FileEntry) :
    ∀ (acc : List Str × List Str) (a : Str), a ∈ acc.1 →
      a ∈ (entries.foldl smartStep acc).1 := by
  induction entries with
  | nil => intro acc a h; exact h
  | cons e es ih =>
    intro acc a h
    apply ih
    rcases smartStep_fst_grows acc e with ⟨t, ht⟩
    rw [ht]
    exact List.mem_append_left _ h

/-- A walked entry that passes name exclusion and is not sniffed useless
ends up in the included list of the walk's accumulator. -/
lemma foldl_smartStep_mem (entries : List FileEntry) :
    ∀ (acc : List Str × List Str) (e : FileEntry), e ∈ entries →
      shouldExcludeFile e.name = false → isUsefulFile e ≠ Except.ok false →
      e.path ∈ (entries.foldl smartStep acc).1 := by
  induction entries with
  | nil => intro acc e h; exact absurd h (List.not_mem_nil e)
  | cons f fs ih =>
    intro acc e he hx hu
    rcases List.mem_cons.mp he with rfl | hmem
    · rw [List.foldl_cons]
      apply foldl_smartStep_fst_mono
      cases hiu : isUsefulFile e with
      | error u => simp [smartStep, hx, hiu]
      | ok b =>
        cases b with
        | false => exact absurd hiu hu
        | true => simp [smartStep, hx, hiu]
    · exact ih _ e hmem hx hu

/-- One smart-walk step grows the excluded list by one exactly on an
excluded entry. -/
lemma smartStep_snd_length (acc : List Str × List Str) (e : FileEntry) :
    ((smartStep acc e).2).length =
      acc.2.length + (if isExcludedEntry e then 1 else 0) := by
  unfold smartStep isExcludedEntry
  cases hx : shouldExcludeFile e.name with
  | true => simp [hx]
  | false =>
    cases hiu : isUsefulFile e with
    | error u => simp [hx, hiu]
    | ok b => cases b <;> simp [hx, hiu]

/-- The length of the walk's excluded list counts the excluded
entries, duplicates included. -/
lemma foldl_smartStep_snd_length (entries : List FileEntry) :
    ∀ acc : List Str × List Str,
      ((entries.foldl smartStep acc).2).length =
        acc.2.length + entries.countP isExcludedEntry := by
  induction entries with
  | nil => intro acc; simp
  | cons e es ih =>
    intro acc
    rw [List.foldl_cons, ih, smartStep_snd_length, List.countP_cons]
    cases h : isExcludedEntry e
    · simp [h]
    · simp [h]
      omega

/-- The collectors' seen-set insertion preserves the dedup invariant. -/
lemma dedupInsert_inv (acc : List WorkItem × List Str) (w : WorkItem)
    (h : DedupInv acc) : DedupInv (dedupInsert acc w) := by
  unfold dedupInsert
  split
  · exact h
  · rename_i hmem
    constructor
    · intro x hx
      rcases List.mem_append.mp hx with hx | hx
      · exact List.mem_cons_of_mem _ (h.1 x hx)
      · rw [List.mem_singleton] at hx
        subst hx
        exact List.mem_cons_self _ _
    · rw [List.pairwise_append]
      refine ⟨h.2, List.pairwise_singleton _ _, ?_⟩
      intro a ha b hb
      rw [List.mem_singleton] at hb
      subst hb
      intro hcontra
      exact hmem (hcontra ▸ h.1 a ha)

/-- Folding any invariant-preserving step preserves the dedup
invariant. -/
lemma foldl_dedupInv {α : Type} (f : List WorkItem × List Str → α → List WorkItem × List Str)
    (hf : ∀ acc a, DedupInv acc → DedupInv (f acc a)) (l : List α) :
    ∀ acc, DedupInv acc → DedupInv (l.foldl f acc) := by
  induction l with
  | nil => intro acc h; exact h
  | cons a l ih => intro acc h; exact ih _ (hf _ _ h)

/-- The recursive collector's inner loop preserves the dedup
invariant. -/
lemma recursiveStep_inv (fs : CollectFS) (outputDir : Str) (dumbMode : Bool)
    (inputPath : Str) (acc : List WorkItem × List Str) (folder : Str)
    (h : DedupInv acc) :
    DedupInv (recursiveStep fs outputDir dumbMode inputPath acc folder) := by
  unfold recursiveStep
  cases fs.abs (joinPath inputPath folder) with
  | none => exact h
  | some absPath => exact dedupInsert_inv _ _ h

/-- The recursive collector's outer loop preserves the dedup
invariant. -/
lemma recursiveRootStep_inv (fs : CollectFS) (outputDir : Str) (dumbMode : Bool)
    (acc : List WorkItem × List Str) (inputPath : Str) (h : DedupInv acc) :
    DedupInv (recursiveRootStep fs outputDir dumbMode acc inputPath) := by
  unfold recursiveRootStep
  split
  · exact h
  · cases fs.subdirs inputPath with
    | error u => exact h
    | ok folders =>
      exact foldl_dedupInv _ (fun a b => recursiveStep_inv fs outputDir dumbMode inputPath a b)
        folders acc h

/-- The direct collector's loop preserves the dedup invariant. -/
lemma directStep_inv (fs : CollectFS) (outputDir : Str) (dumbMode : Bool)
    (acc : List WorkItem × List Str) (inputPath : Str) (h : DedupInv acc) :
    DedupInv (directStep fs outputDir dumbMode acc inputPath) := by
  unfold directStep
  split
  · exact h
  · split
    · exact h
    · cases fs.abs inputPath with
      | none => exact h
      | some absPath => exact dedupInsert_inv _ _ h

/-- Claim C1: starting from `Total = len(workItems)` and zeroed
counters, after `processConcurrently` drains every work item the stats
satisfy `Success + Errors + Skipped = Total`; and after any prefix of
the work (any moment before completion) `Success + Errors + Skipped`
never exceeds `Total`.  The statement quantifies over every job list
and filesystem, hence over every dispatch order. -/
theorem stats_conservation (fs : FS) (items : List WorkItem) (numThreads : Nat) :
    ((processConcurrently fs items numThreads (initStats items)).2.Success +
     (processConcurrently fs items numThreads (initStats items)).2.Errors +
     (processConcurrently fs items numThreads (initStats items)).2.Skipped =
     (processConcurrently fs items numThreads (initStats items)).2.Total) ∧
    ∀ k, (processConcurrently fs (items.take k) numThreads (initStats items)).2.Success +
      (processConcurrently fs (items.take k) numThreads (initStats items)).2.Errors +
      (processConcurrently fs (items.take k) numThreads (initStats items)).2.Skipped ≤
      (initStats items).Total := by
  constructor
  · have h := processConcurrently_statsSum items fs numThreads (initStats items)
    simp only [statsSum, initStats] at h ⊢
    omega
  · intro k
    have h := processConcurrently_statsSum (items.take k) fs numThreads (initStats items)
    have hlen : (items.take k).length ≤ items.length := by
      rw [List.length_take]; exact Nat.min_le_right _ _
    simp only [statsSum, initStats] at h ⊢
    omega

/-- Claim C2: when `addFileToZip` fails after `os.Create` has succeeded,
`convertToCBZ` returns the archive-write error but the partially written
output file still exists at the output path — the program performs no
cleanup, contradicting the spec's cleanup requirement. -/
theorem convertToCBZ_no_cleanup :
    (convertToCBZ failAddFS "src".data "out.cbz".data true).2 =
      Except.error CbzError.addFailed ∧
    (convertToCBZ failAddFS "src".data "out.cbz".data true).1.statOk
      "out.cbz".data = true :=
  ⟨rfl, rfl⟩

/-- Claim C3: on the scenario directory
`{page1.jpg, .DS_Store, .git/config, readme.md}` (with a JPEG page and
a standard short git config), smart filtering includes exactly
`page1.jpg` and `readme.md` and reports two exclusions. -/
theorem smart_exclusion_scenario :
    getSmartFilteredFiles scenarioFS "src".data =
      Except.ok (["src/page1.jpg".data, "src/readme.md".data], 2) := rfl

/-- Claim C4: when the output path already exists, `processWorkItem`
records exactly one `Skipped`, leaves the filesystem (and hence the
existing archive) untouched, and never invokes `convertToCBZ`
(classification or archive build) — the returned flag is `false`. -/
theorem skip_invariant (fs : FS) (item : WorkItem) (s : ConversionStats)
    (h : fs.statOk item.OutputPath = true) :
    processWorkItem fs item s = (fs, { s with Skipped := s.Skipped + 1 }, false) := by
  unfold processWorkItem
  rw [h]
  simp

/-- Witness for `skip_invariant` at a concrete filesystem whose output
archive exists. -/
theorem skip_invariant_witness :
    skipFS.statOk skipItem.OutputPath = true ∧
    processWorkItem skipFS skipItem skipStats =
      (skipFS, { skipStats with Skipped := skipStats.Skipped + 1 }, false) :=
  ⟨by decide, skip_invariant skipFS skipItem skipStats (by decide)⟩

/-- Claim C5: both collectors return work items with pairwise-distinct
source paths, for every input-root list (duplicates and overlaps
included) and every filesystem. -/
theorem collect_dedup (fs : CollectFS) (inputPaths : List Str) (outputDir : Str)
    (dumbMode : Bool) :
    (collectRecursiveWorkItems fs inputPaths outputDir dumbMode).Pairwise
      (fun a b => a.SourcePath ≠ b.SourcePath) ∧
    (collectDirectWorkItems fs inputPaths outputDir dumbMode).Pairwise
      (fun a b => a.SourcePath ≠ b.SourcePath) := by
  have h0 : DedupInv ([], []) :=
    ⟨fun w hw => absurd hw (List.not_mem_nil w), List.Pairwise.nil⟩
  constructor
  · exact (foldl_dedupInv _ (recursiveRootStep_inv fs outputDir dumbMode)
      inputPaths ([], []) h0).2
  · exact (foldl_dedupInv _ (directStep_inv fs outputDir dumbMode)
      inputPaths ([], []) h0).2

/-- Claim C6: a walked file that passes name exclusion but whose
content sniff fails (`isUsefulFile` errors) is present in the included
list that `getSmartFilteredFiles` hands to the archive builder — it is
never silently dropped. -/
theorem fail_open_included (fs : FS) (dir : Str) (e : FileEntry)
    (hw : fs.walkFails dir = false) (he : e ∈ fs.walk dir)
    (hx : shouldExcludeFile e.name = false)
    (hu : isUsefulFile e = Except.error ()) :
    ∃ inc n, getSmartFilteredFiles fs dir = Except.ok (inc, n) ∧ e.path ∈ inc := by
  refine ⟨sortStrings ((fs.walk dir).foldl smartStep ([], [])).1,
          ((fs.walk dir).foldl smartStep ([], [])).2.length, ?_, ?_⟩
  · simp [getSmartFilteredFiles, hw]
  · rw [mem_sortStrings]
    refine foldl_smartStep_mem _ _ e he hx ?_
    rw [hu]
    intro hcon
    cases hcon

/-- Witness for `fail_open_included` at a directory whose only file
cannot be opened for sniffing. -/
theorem fail_open_included_witness :
    failOpenFS.walkFails "d".data = false ∧
    failOpenEntry ∈ failOpenFS.walk "d".data ∧
    shouldExcludeFile failOpenEntry.name = false ∧
    isUsefulFile failOpenEntry = Except.error () ∧
    ∃ inc n, getSmartFilteredFiles failOpenFS "d".data = Except.ok (inc, n) ∧
      failOpenEntry.path ∈ inc :=
  ⟨rfl, by decide, by decide, rfl,
   fail_open_included failOpenFS "d".data failOpenEntry rfl (by decide)
     (by decide) rfl⟩

/-- Counterexample to claim C7 as stated: two excluded files named
`.DS_Store` in different subdirectories yield `excludedCount = 2`,
while the number of distinct excluded base names is `1`. -/
theorem excluded_count_not_distinct :
    getSmartFilteredFiles dupNameFS "d".data = Except.ok ([], 2) ∧
    (((dupNameFS.walk "d".data).foldl smartStep ([], [])).2).dedup.length = 1 :=
  ⟨rfl, by decide⟩

/-- Claim C7 (amended): `excludedCount` equals the number of excluded
file occurrences met by the walk — base names with duplicates counted,
not distinct names. -/
theorem excluded_count_counts_occurrences (fs : FS) (dir : Str)
    (inc : List Str) (n : Nat)
    (h : getSmartFilteredFiles fs dir = Except.ok (inc, n)) :
    n = (fs.walk dir).countP isExcludedEntry := by
  unfold getSmartFilteredFiles at h
  split at h
  · cases h
  · simp only [Except.ok.injEq, Prod.mk.injEq] at h
    rw [← h.2, foldl_smartStep_snd_length]
    simp

/-- Witness for `excluded_count_counts_occurrences` on the
duplicate-name directory. -/
theorem excluded_count_counts_occurrences_witness :
    getSmartFilteredFiles dupNameFS "d".data = Except.ok ([], 2) ∧
    (2 : Nat) = (dupNameFS.walk "d".data).countP isExcludedEntry :=
  ⟨rfl, excluded_count_counts_occurrences dupNameFS "d".data [] 2 rfl⟩

/-- Claim C8: contrary to the claim, a file name merely ending in
`.swp`, `.swo` or `~` is not excluded by `shouldExcludeFile` — the
stored patterns keep their literal asterisk and are matched with
`strings.Contains`, so only names containing the asterisk match. -/
theorem swap_suffix_not_excluded :
    shouldExcludeFile "document.swp".data = false ∧
    shouldExcludeFile "archive.swo".data = false ∧
    shouldExcludeFile "page1.jpg~".data = false ∧
    shouldExcludeFile "weird*.swp".data = true := by decide

/-- Claim C9: a readable zero-byte file that passes name exclusion and
has an extension in neither allowlist is sniffed over the zero-filled
buffer, detected as `application/octet-stream`, and classified
excluded — not fail-open-included; and more generally a file shorter
than 512 bytes is sniffed over its contents padded with zeros to 512
bytes. -/
theorem zero_byte_sniff_excluded (e : FileEntry)
    (h1 : shouldExcludeFile e.name = false)
    (h2 : textExtensions.contains (toLowerStr (fileExt e.path)) = false)
    (h3 : videoExtensions.contains (toLowerStr (fileExt e.path)) = false)
    (h4 : e.readable = true)
    (h5 : e.content = []) :
    (isUsefulFile e = Except.ok false ∧
     ∀ inc exc, smartStep (inc, exc) e = (inc, exc ++ [e.name])) ∧
    ∀ c : Bytes, c.length < 512 →
      sniffBuffer c = c ++ List.replicate (512 - c.length) 0 := by
  have hu : isUsefulFile e = Except.ok false := by
    simp only [isUsefulFile, h2, h3, h4, h5]
    rfl
  refine ⟨⟨hu, ?_⟩, ?_⟩
  · intro inc exc
    simp [smartStep, h1, hu]
  · intro c hc
    unfold sniffBuffer
    rw [List.take_of_length_le (Nat.le_of_lt hc)]

/-- Witness for `zero_byte_sniff_excluded` at a concrete zero-byte
`.bin` file, including one concrete padded buffer. -/
theorem zero_byte_sniff_excluded_witness :
    shouldExcludeFile zeroByteEntry.name = false ∧
    zeroByteEntry.content = [] ∧
    isUsefulFile zeroByteEntry = Except.ok false ∧
    smartStep ([], []) zeroByteEntry = ([], ["x.bin".data]) ∧
    sniffBuffer [0x41] = [0x41] ++ List.replicate 511 0 :=
  ⟨by decide, rfl,
   (zero_byte_sniff_excluded zeroByteEntry (by decide) (by decide) (by decide)
      rfl rfl).1.1,
   (zero_byte_sniff_excluded zeroByteEntry (by decide) (by decide) (by decide)
      rfl rfl).1.2 [] [],
   (zero_byte_sniff_excluded zeroByteEntry (by decide) (by decide) (by decide)
      rfl rfl).2 [0x41] (by decide)⟩

/-- Claim C10: every call of `processWorkItem` updates the stats in
exactly one of the three outcome shapes — one `Skipped`, one `Errors`,
or one `Success` together with that job's excluded count added to
`NonImageFiles` — and `Total` never changes and no counter decreases. -/
theorem processWorkItem_counter_discipline (fs : FS) (item : WorkItem)
    (s : ConversionStats) :
    ((processWorkItem fs item s).2.1 = { s with Skipped := s.Skipped + 1 } ∨
     (processWorkItem fs item s).2.1 = { s with Errors := s.Errors + 1 } ∨
     ∃ n, (processWorkItem fs item s).2.1 =
       { s with Success := s.Success + 1,
                NonImageFiles := s.NonImageFiles + n }) ∧
    (processWorkItem fs item s).2.1.Total = s.Total ∧
    s.Success ≤ (processWorkItem fs item s).2.1.Success ∧
    s.Errors ≤ (processWorkItem fs item s).2.1.Errors ∧
    s.Skipped ≤ (processWorkItem fs item s).2.1.Skipped ∧
    s.NonImageFiles ≤ (processWorkItem fs item s).2.1.NonImageFiles := by
  refine ⟨processWorkItem_stats_cases fs item s, ?_⟩
  rcases processWorkItem_stats_cases fs item s with h | h | ⟨n, h⟩ <;>
    rw [h] <;> simp

end ConvertCbz
